import Mathlib

/-!
Verification of the boot sequence in `src/software/kernel/main.c` of the
NyuziProcessor kernel: `kernel_main` (primary-thread boot controller) and
`thread_n_main` (worker-thread entry).

The two functions are embedded as small-step state machines.  Every
volatile memory access, external call and diagnostic print of the C code
becomes an `Event` appended to the state's trace, so ordering and
exactly-once properties can be stated about the trace.  The external
collaborators `vm_init`, `kmalloc` and `kprintf` are declared in headers
only (their code is not part of this file's scope); where their behaviour
matters it is modelled from the specification, as noted in doc comments.
-/

/-- Observable events of the boot path: external calls, volatile memory
accesses, control-register reads and diagnostic output. -/
inductive Event where
  /-- the call to `vm_init()` returning -/
  | vmInit : Event
  /-- `kprintf` of a literal string -/
  | printStr (s : String) : Event
  /-- `kprintf("%08x\n", v)` -/
  | printHex (v : Nat) : Event
  /-- `kprintf("%d", v)` -/
  | printInt (v : Nat) : Event
  /-- `kmalloc(size)` returning address `res` -/
  | allocCall (size res : Nat) : Event
  /-- `kmalloc(size)` unable to satisfy the request -/
  | allocFail (size : Nat) : Event
  /-- a volatile store of `val` at byte address `addr` -/
  | store (addr val : Nat) : Event
  /-- a volatile load at byte address `addr` observing `val` -/
  | load (addr val : Nat) : Event
  /-- `__builtin_nyuzi_read_control_reg(idx)` observing `val`
  (a processor-internal read, not a memory access) -/
  | readCtrl (idx val : Nat) : Event
  deriving DecidableEq, Repr

/-- The fixed memory-mapped address of the thread enable register,
`0xffff0100` in `kernel_main`. -/
def threadEnableAddr : Nat := 0xffff0100

/-- The all-ones 32-bit mask written to the thread enable register. -/
def allThreadsMask : Nat := 0xffffffff

/-- The 32-bit sentinel written through the allocated block,
`0xabcdef12` in `kernel_main`. -/
def testPattern : Nat := 0xabcdef12

/-- The one-page request size passed to `kmalloc`, `0x1000`. -/
def pageSize : Nat := 0x1000

/-- Environment of the boot controller.  Modelled from the spec: the heap
allocator entry point `kmalloc` is external to `main.c` (declared in
`kernel_heap.h`); per the spec it either returns a pointer to writable
mapped memory or fails, failure being a fatal condition for the boot
sequence with no defined recovery. -/
structure Env where
  /-- result of `kmalloc size`: `some addr` on success, `none` on failure -/
  alloc : Nat → Option Nat

/-- Program points of `kernel_main`, one per statement of the C function. -/
inductive PC where
  /-- about to call `vm_init()` -/
  | start : PC
  /-- about to `kprintf("Hello kernel land\n")` -/
  | afterVm : PC
  /-- about to call `kmalloc(0x1000)` -/
  | afterGreet : PC
  /-- about to perform the store `*block = 0xabcdef12` -/
  | afterAlloc : PC
  /-- about to perform `kprintf("%08x\n", *block)` -/
  | afterStore : PC
  /-- about to store `0xffffffff` at `0xffff0100` -/
  | afterPrint : PC
  /-- the final `for (;;) ;` of `kernel_main` -/
  | loop : PC
  /-- Modelled from the spec: allocation failure is fatal, the boot
  sequence does not proceed past a failed `kmalloc` -/
  | fatal : PC
  deriving DecidableEq, Repr

/-- State of the boot controller: program point, the local `block`
pointer, the word-addressed memory seen through volatile accesses, and
the trace of events so far. -/
structure KState where
  pc : PC
  block : Nat
  mem : Nat → Nat
  events : List Event

/-- One step of `kernel_main`: executes the statement at the current
program point, appending the events it produces.  The two absorbing
points `loop` and `fatal` step to themselves. -/
def kernel_main_step (env : Env) (s : KState) : KState :=
  match s.pc with
  | PC.start =>
      { s with pc := PC.afterVm, events := s.events ++ [Event.vmInit] }
  | PC.afterVm =>
      { s with pc := PC.afterGreet,
               events := s.events ++ [Event.printStr "Hello kernel land\n"] }
  | PC.afterGreet =>
      match env.alloc pageSize with
      | some a =>
          { s with pc := PC.afterAlloc, block := a,
                   events := s.events ++ [Event.allocCall pageSize a] }
      | none =>
          { s with pc := PC.fatal,
                   events := s.events ++ [Event.allocFail pageSize] }
  | PC.afterAlloc =>
      { s with pc := PC.afterStore,
               mem := fun x => if x = s.block then testPattern else s.mem x,
               events := s.events ++ [Event.store s.block testPattern] }
  | PC.afterStore =>
      { s with pc := PC.afterPrint,
               events := s.events ++
                 [Event.load s.block (s.mem s.block),
                  Event.printHex (s.mem s.block)] }
  | PC.afterPrint =>
      { s with pc := PC.loop,
               mem := fun x => if x = threadEnableAddr then allThreadsMask
                               else s.mem x,
               events := s.events ++
                 [Event.store threadEnableAddr allThreadsMask] }
  | PC.loop => s
  | PC.fatal => s

/-- The state at entry to `kernel_main`: at the first statement, with
`block` not yet assigned and nothing printed. -/
def initState : KState :=
  { pc := PC.start, block := 0, mem := fun _ => 0, events := [] }

/-- `n` steps of `kernel_main` from the entry state. -/
def kernel_main_run (env : Env) : Nat → KState
  | 0 => initState
  | n + 1 => kernel_main_step env (kernel_main_run env n)

/-- The complete event trace of one boot.  Six steps execute every
statement of `kernel_main`; after that the state is absorbed in `loop`
(or `fatal`). -/
def kernel_main_trace (env : Env) : List Event :=
  (kernel_main_run env 6).events

/-- Program points of `thread_n_main`. -/
inductive WPC where
  /-- about to `kprintf("%d", __builtin_nyuzi_read_control_reg(0))` -/
  | start : WPC
  /-- the final `for (;;) ;` of `thread_n_main` -/
  | loop : WPC
  deriving DecidableEq, Repr

/-- State of one worker thread: program point and event trace. -/
structure WState where
  pc : WPC
  events : List Event

/-- One step of `thread_n_main` for a thread whose control registers read
as `ctrl`: reads control register 0 through the non-memory primitive,
prints it with `"%d"`, then loops forever. -/
def thread_n_main_step (ctrl : Nat → Nat) (s : WState) : WState :=
  match s.pc with
  | WPC.start =>
      { pc := WPC.loop,
        events := s.events ++
          [Event.readCtrl 0 (ctrl 0), Event.printInt (ctrl 0)] }
  | WPC.loop => s

/-- The worker-thread entry state. -/
def winitState : WState := { pc := WPC.start, events := [] }

/-- `n` steps of `thread_n_main` from its entry state. -/
def thread_n_main_run (ctrl : Nat → Nat) : Nat → WState
  | 0 => winitState
  | n + 1 => thread_n_main_step ctrl (thread_n_main_run ctrl n)

/-- Modelled from the spec: `kprintf`, the diagnostic output primitive,
is external to `main.c`; per the spec `"%08x"` emits a 32-bit value as
eight-digit zero-padded lowercase hexadecimal and `"%d"` emits an
integer in decimal with no padding.  `hexChar` maps one hex digit value
to its lowercase character. -/
def hexChar (n : Nat) : Char :=
  if n < 10 then Char.ofNat (48 + n) else Char.ofNat (87 + n)

/-- Eight-digit zero-padded lowercase hexadecimal rendering of a 32-bit
value, as `kprintf("%08x", v)` produces. -/
def toHex8 (v : Nat) : String :=
  String.mk ((List.range 8).map fun i => hexChar (v / 16 ^ (7 - i) % 16))

/-- The characters an event contributes to the diagnostic stream. -/
def Event.output : Event → String
  | Event.printStr s => s
  | Event.printHex v => toHex8 v ++ "\n"
  | Event.printInt v => toString v
  | _ => ""

/-- The diagnostic stream produced by a trace: the concatenation, in
order, of the characters each event prints. -/
def outputOf (evs : List Event) : String :=
  evs.foldr (fun e acc => Event.output e ++ acc) ""

-- Helper lemmas about the run.

/-- An environment whose allocation succeeds at a fixed address,
used to instantiate witnesses. -/
def envOk : Env := { alloc := fun _ => some 0x2000 }

/-- An environment whose allocation fails, used to instantiate
witnesses for the failure path. -/
def envFail : Env := { alloc := fun _ => none }

theorem step_loop_fix (env : Env) (s : KState) (h : s.pc = PC.loop) :
    kernel_main_step env s = s := by
  simp [kernel_main_step, h]

theorem step_fatal_fix (env : Env) (s : KState) (h : s.pc = PC.fatal) :
    kernel_main_step env s = s := by
  simp [kernel_main_step, h]

/-- After six steps the machine is in one of the two absorbing program
points, whatever the allocator did. -/
theorem run6_pc (env : Env) :
    (kernel_main_run env 6).pc = PC.loop ∨
      (kernel_main_run env 6).pc = PC.fatal := by
  rcases h : env.alloc pageSize with _ | a <;>
    simp [kernel_main_run, kernel_main_step, initState, h]

/-- The run is stationary from step six on: the machine stays in its
final state forever, performing no further work. -/
theorem run_stable (env : Env) :
    ∀ n, 6 ≤ n → kernel_main_run env n = kernel_main_run env 6 := by
  intro n hn
  induction n with
  | zero => omega
  | succ m ih =>
    rcases Nat.lt_or_ge m 6 with hm | hm
    · have h6 : m + 1 = 6 := by omega
      rw [h6]
    · have hrec := ih hm
      have hfix : kernel_main_step env (kernel_main_run env 6) =
          kernel_main_run env 6 := by
        rcases run6_pc env with hpc | hpc
        · exact step_loop_fix env _ hpc
        · exact step_fatal_fix env _ hpc
      calc kernel_main_run env (m + 1)
          = kernel_main_step env (kernel_main_run env m) := rfl
        _ = kernel_main_step env (kernel_main_run env 6) := by rw [hrec]
        _ = kernel_main_run env 6 := hfix

/-- On a successful allocation the whole trace of the boot is the seven
events of `kernel_main`, in statement order. -/
theorem trace_of_alloc_some (env : Env) (a : Nat)
    (h : env.alloc pageSize = some a) :
    kernel_main_trace env =
      [Event.vmInit, Event.printStr "Hello kernel land\n",
       Event.allocCall pageSize a, Event.store a testPattern,
       Event.load a testPattern, Event.printHex testPattern,
       Event.store threadEnableAddr allThreadsMask] := by
  simp [kernel_main_trace, kernel_main_run, kernel_main_step, initState, h]

/-- On a failed allocation the trace stops at the failure: only the VM
init and the greeting precede it. -/
theorem trace_of_alloc_none (env : Env) (h : env.alloc pageSize = none) :
    kernel_main_trace env =
      [Event.vmInit, Event.printStr "Hello kernel land\n",
       Event.allocFail pageSize] := by
  simp [kernel_main_trace, kernel_main_run, kernel_main_step, initState, h]

/-- Each step only appends events: the trace grows monotonically. -/
theorem step_events_extend (env : Env) (s : KState) :
    ∃ t, (kernel_main_step env s).events = s.events ++ t := by
  cases hpc : s.pc
  case start => exact ⟨[Event.vmInit], by simp [kernel_main_step, hpc]⟩
  case afterVm =>
    exact ⟨[Event.printStr "Hello kernel land\n"],
      by simp [kernel_main_step, hpc]⟩
  case afterGreet =>
    rcases h : env.alloc pageSize with _ | a
    · exact ⟨[Event.allocFail pageSize], by simp [kernel_main_step, hpc, h]⟩
    · exact ⟨[Event.allocCall pageSize a],
        by simp [kernel_main_step, hpc, h]⟩
  case afterAlloc =>
    exact ⟨[Event.store s.block testPattern],
      by simp [kernel_main_step, hpc]⟩
  case afterStore =>
    exact ⟨[Event.load s.block (s.mem s.block),
            Event.printHex (s.mem s.block)],
      by simp [kernel_main_step, hpc]⟩
  case afterPrint =>
    exact ⟨[Event.store threadEnableAddr allThreadsMask],
      by simp [kernel_main_step, hpc]⟩
  case loop => exact ⟨[], by simp [kernel_main_step, hpc]⟩
  case fatal => exact ⟨[], by simp [kernel_main_step, hpc]⟩

/-- The events of an earlier point of the run form an initial segment of
the events of a later point. -/
theorem run_events_extend (env : Env) (m n : Nat) (h : m ≤ n) :
    ∃ t, (kernel_main_run env n).events =
      (kernel_main_run env m).events ++ t := by
  induction n with
  | zero =>
    have hm : m = 0 := Nat.le_zero.mp h
    subst hm
    exact ⟨[], by simp⟩
  | succ k ih =>
    rcases Nat.lt_or_ge m (k + 1) with hm | hm
    · obtain ⟨t, ht⟩ := ih (by omega)
      obtain ⟨u, hu⟩ := step_events_extend env (kernel_main_run env k)
      refine ⟨t ++ u, ?_⟩
      calc (kernel_main_run env (k + 1)).events
          = (kernel_main_step env (kernel_main_run env k)).events := rfl
        _ = (kernel_main_run env k).events ++ u := hu
        _ = ((kernel_main_run env m).events ++ t) ++ u := by rw [ht]
        _ = (kernel_main_run env m).events ++ (t ++ u) :=
            List.append_assoc _ _ _
    · have hm6 : m = k + 1 := by omega
      subst hm6
      exact ⟨[], by simp⟩

/-- Any event observed at any point of the run occurs in the complete
boot trace. -/
theorem mem_run_events (env : Env) (n : Nat) (e : Event)
    (h : e ∈ (kernel_main_run env n).events) :
    e ∈ kernel_main_trace env := by
  rcases le_or_lt n 6 with hn | hn
  · obtain ⟨t, ht⟩ := run_events_extend env n 6 hn
    rw [kernel_main_trace, ht]
    exact List.mem_append_left _ h
  · rw [kernel_main_trace, ← run_stable env n (by omega)]
    exact h

/-- The worker thread is stationary from its first step on. -/
theorem wrun_stable (ctrl : Nat → Nat) :
    ∀ n, 1 ≤ n → thread_n_main_run ctrl n = thread_n_main_run ctrl 1 := by
  intro n hn
  induction n with
  | zero => omega
  | succ m ih =>
    rcases Nat.lt_or_ge m 1 with hm | hm
    · have h1 : m + 1 = 1 := by omega
      rw [h1]
    · have hrec := ih hm
      have hpc : (thread_n_main_run ctrl 1).pc = WPC.loop := rfl
      calc thread_n_main_run ctrl (m + 1)
          = thread_n_main_step ctrl (thread_n_main_run ctrl m) := rfl
        _ = thread_n_main_step ctrl (thread_n_main_run ctrl 1) := by
            rw [hrec]
        _ = thread_n_main_run ctrl 1 := by
            simp [thread_n_main_step, hpc]

/-- A worker thread never issues a memory store at any point of its run. -/
theorem wrun_no_store (ctrl : Nat → Nat) (n b v : Nat) :
    Event.store b v ∉ (thread_n_main_run ctrl n).events := by
  cases n with
  | zero => simp [thread_n_main_run, winitState]
  | succ m =>
    rw [wrun_stable ctrl (m + 1) (by omega)]
    simp [thread_n_main_run, thread_n_main_step, winitState]

-- Claim theorems.

/-- C1: In every execution of the boot sequence, the write of the
all-ones mask to the Thread Enable Register occurs strictly after the
`vm_init` call has returned: wherever the release store appears in the
boot trace, a `vmInit` event appears at a strictly earlier position, on
every code path (allocation success or failure alike); no path issues
the release write before, or without, VM initialization. -/
theorem C1_enable_write_after_vm_init (env : Env) (i : Nat)
    (h : (kernel_main_trace env)[i]? =
        some (Event.store threadEnableAddr allThreadsMask)) :
    ∃ j, j < i ∧ (kernel_main_trace env)[j]? = some Event.vmInit := by
  rcases ha : env.alloc pageSize with _ | a
  · rw [trace_of_alloc_none env ha] at h ⊢
    have hlt : i < 3 := by
      by_contra hge
      push_neg at hge
      rw [List.getElem?_eq_none (by simpa using hge)] at h
      exact Option.noConfusion h
    interval_cases i <;>
      simp_all [threadEnableAddr, allThreadsMask, pageSize]
  · rw [trace_of_alloc_some env a ha] at h ⊢
    have hlt : i < 7 := by
      by_contra hge
      push_neg at hge
      rw [List.getElem?_eq_none (by simpa using hge)] at h
      exact Option.noConfusion h
    interval_cases i <;>
      simp_all [threadEnableAddr, allThreadsMask, testPattern, pageSize]
    exact ⟨0, by omega, rfl⟩

/-- Witness for C1 at a concrete environment: the release store sits at
index 6 of the trace and `vmInit` indeed precedes it. -/
theorem C1_enable_write_after_vm_init_witness :
    ∃ j, j < 6 ∧ (kernel_main_trace envOk)[j]? = some Event.vmInit :=
  C1_enable_write_after_vm_init envOk 6 (by decide)

/-- C2: For any successful one-page allocation at address `a`, after the
smoke-test store of `0xabcdef12` through the returned pointer, reading
back through that same pointer yields exactly `0xabcdef12`: the memory
at `block` after step 4 holds the pattern, the trace records the load
observing the pattern, and the value the boot emits in the smoke test is
that very pattern. -/
theorem C2_round_trip (env : Env) (a : Nat)
    (h : env.alloc pageSize = some a) :
    (kernel_main_run env 4).mem (kernel_main_run env 4).block =
      testPattern ∧
    Event.load a testPattern ∈ kernel_main_trace env ∧
    Event.printHex testPattern ∈ kernel_main_trace env := by
  refine ⟨?_, ?_, ?_⟩
  · simp [kernel_main_run, kernel_main_step, initState, h]
  · rw [trace_of_alloc_some env a h]
    simp
  · rw [trace_of_alloc_some env a h]
    simp

/-- Witness for C2 at a concrete environment allocating at `0x2000`. -/
theorem C2_round_trip_witness :
    (kernel_main_run envOk 4).mem (kernel_main_run envOk 4).block =
      testPattern ∧
    Event.load 0x2000 testPattern ∈ kernel_main_trace envOk ∧
    Event.printHex testPattern ∈ kernel_main_trace envOk :=
  C2_round_trip envOk 0x2000 rfl

/-- C3: If the allocator cannot satisfy the one-page request, the boot
sequence is fatal and does not proceed: its trace ends at the allocation
failure, no point of the run ever performs a memory store (in particular
neither the smoke-test store nor the Thread Enable Register store) or a
memory load, and the final idle loop of `kernel_main` is never reached. -/
theorem C3_alloc_failure_fatal (env : Env)
    (h : env.alloc pageSize = none) :
    kernel_main_trace env =
      [Event.vmInit, Event.printStr "Hello kernel land\n",
       Event.allocFail pageSize] ∧
    (∀ n b v, Event.store b v ∉ (kernel_main_run env n).events) ∧
    (∀ n b v, Event.load b v ∉ (kernel_main_run env n).events) ∧
    (∀ n, (kernel_main_run env n).pc ≠ PC.loop) := by
  have htr := trace_of_alloc_none env h
  refine ⟨htr, ?_, ?_, ?_⟩
  · intro n b v hmem
    have hm := mem_run_events env n _ hmem
    rw [htr] at hm
    simp at hm
  · intro n b v hmem
    have hm := mem_run_events env n _ hmem
    rw [htr] at hm
    simp at hm
  · intro n
    rcases le_or_lt n 6 with hn | hn
    · interval_cases n <;>
        simp [kernel_main_run, kernel_main_step, initState, h]
    · rw [run_stable env n (by omega)]
      simp [kernel_main_run, kernel_main_step, initState, h]

/-- Witness for C3 at a concrete always-failing environment. -/
theorem C3_alloc_failure_fatal_witness :
    kernel_main_trace envFail =
      [Event.vmInit, Event.printStr "Hello kernel land\n",
       Event.allocFail pageSize] ∧
    Event.store 0x2000 testPattern ∉ (kernel_main_run envFail 6).events ∧
    (kernel_main_run envFail 9).pc ≠ PC.loop :=
  ⟨(C3_alloc_failure_fatal envFail rfl).1,
   (C3_alloc_failure_fatal envFail rfl).2.1 6 0x2000 testPattern,
   (C3_alloc_failure_fatal envFail rfl).2.2.2 9⟩

/-- C4: On a boot whose allocation succeeds (at an address that is not
the device register itself, as the allocator hands out mapped heap
memory), the Thread Enable Register at its single fixed address
`0xffff0100` is written exactly once, the value written is the all-ones
32-bit mask `0xffffffff`, and nothing else in the core writes it: every
store to that address in the boot trace carries the all-ones mask, and a
worker thread never issues any memory store at all. -/
theorem C4_enable_write_exactly_once (env : Env) (a : Nat)
    (h : env.alloc pageSize = some a) (ha : a ≠ threadEnableAddr) :
    (kernel_main_trace env).count
      (Event.store threadEnableAddr allThreadsMask) = 1 ∧
    (∀ v, Event.store threadEnableAddr v ∈ kernel_main_trace env →
      v = allThreadsMask) ∧
    (∀ ctrl n b v, Event.store b v ∉ (thread_n_main_run ctrl n).events) := by
  refine ⟨?_, ?_, ?_⟩
  · rw [trace_of_alloc_some env a h]
    simp [List.count_cons, testPattern, allThreadsMask]
  · intro v hv
    rw [trace_of_alloc_some env a h] at hv
    simp at hv
    rcases hv with h1 | h2
    · exact absurd h1.1.symm ha
    · exact h2
  · exact fun ctrl n b v => wrun_no_store ctrl n b v

/-- Witness for C4 at a concrete environment allocating at `0x2000`. -/
theorem C4_enable_write_exactly_once_witness :
    (kernel_main_trace envOk).count
      (Event.store threadEnableAddr allThreadsMask) = 1 ∧
    Event.store 0x1234 7 ∉ (thread_n_main_run (fun _ => 2) 3).events :=
  ⟨(C4_enable_write_exactly_once envOk 0x2000 rfl (by decide)).1,
   (C4_enable_write_exactly_once envOk 0x2000 rfl (by decide)).2.2
     (fun _ => 2) 3 0x1234 7⟩

/-- C5: `kernel_main` never returns: from step six on the run is
stationary (no statement follows the final loop), the machine's final
program point is one of the two absorbing points — the final idle loop
on every successful path, the fatal allocation-failure point otherwise —
and a step from the loop point changes nothing. -/
theorem C5_never_returns (env : Env) :
    (∀ n, 6 ≤ n → kernel_main_run env n = kernel_main_run env 6) ∧
    ((kernel_main_run env 6).pc = PC.loop ∨
      (kernel_main_run env 6).pc = PC.fatal) ∧
    (∀ a, env.alloc pageSize = some a →
      (kernel_main_run env 6).pc = PC.loop) ∧
    (∀ s, s.pc = PC.loop → kernel_main_step env s = s) := by
  refine ⟨run_stable env, run6_pc env, ?_, step_loop_fix env⟩
  intro a h
  simp [kernel_main_run, kernel_main_step, initState, h]

/-- Witness for C5 at a concrete environment. -/
theorem C5_never_returns_witness :
    kernel_main_run envOk 7 = kernel_main_run envOk 6 ∧
    (kernel_main_run envOk 6).pc = PC.loop :=
  ⟨(C5_never_returns envOk).1 7 (by omega),
   (C5_never_returns envOk).2.2.1 0x2000 rfl⟩

/-- C6: On every released thread, `thread_n_main` reads control register
0 through the dedicated non-memory primitive, emits exactly the observed
value through the integer format, and then loops forever: its one active
step produces exactly the control-register read followed by the integer
print of the same value, it is then at the loop point, the run is
stationary from that step on, and no ordinary memory load occurs. -/
theorem C6_worker_behavior (ctrl : Nat → Nat) :
    (thread_n_main_run ctrl 1).events =
      [Event.readCtrl 0 (ctrl 0), Event.printInt (ctrl 0)] ∧
    (thread_n_main_run ctrl 1).pc = WPC.loop ∧
    (∀ n, 1 ≤ n → thread_n_main_run ctrl n = thread_n_main_run ctrl 1) ∧
    (∀ b v, Event.load b v ∉ (thread_n_main_run ctrl 1).events) := by
  refine ⟨rfl, rfl, wrun_stable ctrl, ?_⟩
  intro b v
  simp [thread_n_main_run, thread_n_main_step, winitState]

/-- Witness for C6 at a concrete control-register file reading 5. -/
theorem C6_worker_behavior_witness :
    (thread_n_main_run (fun _ => 5) 1).events =
      [Event.readCtrl 0 5, Event.printInt 5] ∧
    thread_n_main_run (fun _ => 5) 3 = thread_n_main_run (fun _ => 5) 1 :=
  ⟨(C6_worker_behavior (fun _ => 5)).1,
   (C6_worker_behavior (fun _ => 5)).2.2.1 3 (by omega)⟩

/-- C7: A smoke-test mismatch is not fatal: from the read point, whatever
value `v` the volatile read observes (no constraint relates it to the
value written), the machine emits exactly `v` — performing no
comparison, assertion or halt on it — and then unconditionally proceeds
to the Thread Enable Register store and the final loop point. -/
theorem C7_mismatch_not_fatal (env : Env) (s : KState)
    (h : s.pc = PC.afterStore) :
    (kernel_main_step env s).events =
      s.events ++ [Event.load s.block (s.mem s.block),
                   Event.printHex (s.mem s.block)] ∧
    (kernel_main_step env (kernel_main_step env s)).pc = PC.loop ∧
    (kernel_main_step env (kernel_main_step env s)).events =
      s.events ++ [Event.load s.block (s.mem s.block),
                   Event.printHex (s.mem s.block),
                   Event.store threadEnableAddr allThreadsMask] := by
  refine ⟨?_, ?_, ?_⟩ <;> simp [kernel_main_step, h]

/-- A state at the read point whose memory holds a value different from
the written pattern everywhere, exhibiting a mismatching read-back. -/
def mismatchState : KState :=
  { pc := PC.afterStore, block := 0x2000, mem := fun _ => 0xdeadbeef,
    events := [] }

/-- Witness for C7 at the concrete mismatching state: the machine emits
the mismatching value `0xdeadbeef` and still reaches the loop point. -/
theorem C7_mismatch_not_fatal_witness :
    (kernel_main_step envOk mismatchState).events =
      [Event.load 0x2000 0xdeadbeef, Event.printHex 0xdeadbeef] ∧
    (kernel_main_step envOk (kernel_main_step envOk mismatchState)).pc =
      PC.loop := by
  have h := C7_mismatch_not_fatal envOk mismatchState rfl
  exact ⟨by simpa [mismatchState] using h.1, h.2.1⟩

/-- C8: On a successful boot, `kernel_main` performs its operations in
exactly this order: VM init, the fixed greeting, the one-page allocator
request, the test store through the returned pointer, the read back
(with the read-back value emitted in hexadecimal), the thread-release
register store — the trace is exactly that sequence — and from step six
on the machine sits at the final idle loop. -/
theorem C8_statement_order (env : Env) (a : Nat)
    (h : env.alloc pageSize = some a) :
    kernel_main_trace env =
      [Event.vmInit, Event.printStr "Hello kernel land\n",
       Event.allocCall pageSize a, Event.store a testPattern,
       Event.load a testPattern, Event.printHex testPattern,
       Event.store threadEnableAddr allThreadsMask] ∧
    (∀ n, 6 ≤ n → (kernel_main_run env n).pc = PC.loop) := by
  refine ⟨trace_of_alloc_some env a h, ?_⟩
  intro n hn
  rw [run_stable env n hn]
  simp [kernel_main_run, kernel_main_step, initState, h]

/-- Witness for C8 at a concrete environment allocating at `0x2000`. -/
theorem C8_statement_order_witness :
    kernel_main_trace envOk =
      [Event.vmInit, Event.printStr "Hello kernel land\n",
       Event.allocCall pageSize 0x2000, Event.store 0x2000 testPattern,
       Event.load 0x2000 testPattern, Event.printHex testPattern,
       Event.store threadEnableAddr allThreadsMask] ∧
    (kernel_main_run envOk 8).pc = PC.loop :=
  ⟨(C8_statement_order envOk 0x2000 rfl).1,
   (C8_statement_order envOk 0x2000 rfl).2 8 (by omega)⟩

/-- C9: On a normal boot the disabled fault-forcing path is never
exercised: provided the allocator never hands out the invalid address 1,
no point of the run stores to address 1, and every memory store the boot
issues is either the smoke-test store of the pattern to the allocated
block or the all-ones store to the Thread Enable Register. -/
theorem C9_no_invalid_address_write (env : Env)
    (hvalid : ∀ b, env.alloc pageSize = some b → b ≠ 1) :
    (∀ n v, Event.store 1 v ∉ (kernel_main_run env n).events) ∧
    (∀ b v, Event.store b v ∈ kernel_main_trace env →
      (env.alloc pageSize = some b ∧ v = testPattern) ∨
      (b = threadEnableAddr ∧ v = allThreadsMask)) := by
  have hchar : ∀ b v, Event.store b v ∈ kernel_main_trace env →
      (env.alloc pageSize = some b ∧ v = testPattern) ∨
      (b = threadEnableAddr ∧ v = allThreadsMask) := by
    intro b v hmem
    rcases ha : env.alloc pageSize with _ | a
    · rw [trace_of_alloc_none env ha] at hmem
      simp at hmem
    · rw [trace_of_alloc_some env a ha] at hmem
      simp at hmem
      rcases hmem with ⟨hb, hv⟩ | h2
      · subst hb
        exact Or.inl ⟨rfl, hv⟩
      · exact Or.inr h2
  refine ⟨?_, hchar⟩
  intro n v hmem
  have hm := mem_run_events env n _ hmem
  rcases hchar 1 v hm with h1 | h2
  · exact hvalid 1 h1.1 rfl
  · have h1e : (1 : Nat) = threadEnableAddr := h2.1
    simp [threadEnableAddr] at h1e

/-- Witness for C9 at a concrete environment allocating at `0x2000`. -/
theorem C9_no_invalid_address_write_witness :
    Event.store 1 testPattern ∉ (kernel_main_run envOk 6).events ∧
    ((envOk.alloc pageSize = some 0x2000 ∧ testPattern = testPattern) ∨
      ((0x2000 : Nat) = threadEnableAddr ∧ testPattern = allThreadsMask)) :=
  ⟨(C9_no_invalid_address_write envOk
      (by intro b hb; simp [envOk] at hb; omega)).1 6 testPattern,
   (C9_no_invalid_address_write envOk
      (by intro b hb; simp [envOk] at hb; omega)).2 0x2000 testPattern
     (by decide)⟩

/-- C10: On a successful boot the primary thread's diagnostic output is
exactly the two fixed lines, the literal greeting followed by the
read-back value as eight-digit zero-padded lowercase hexadecimal with a
trailing newline — `abcdef12` on the successful round trip — while a
worker thread's output is exactly the decimal rendering of its control
register 0, with no newline appended. -/
theorem C10_diagnostic_output (env : Env) (a : Nat)
    (h : env.alloc pageSize = some a) :
    outputOf (kernel_main_trace env) =
      "Hello kernel land\n" ++ "abcdef12\n" ∧
    (∀ ctrl : Nat → Nat, ∀ n, 1 ≤ n →
      outputOf (thread_n_main_run ctrl n).events = toString (ctrl 0)) := by
  refine ⟨?_, ?_⟩
  · rw [trace_of_alloc_some env a h]
    simp [outputOf, Event.output]
    decide
  · intro ctrl n hn
    rw [wrun_stable ctrl n hn]
    simp [thread_n_main_run, thread_n_main_step, winitState, outputOf,
      Event.output]

/-- Witness for C10 at concrete environments. -/
theorem C10_diagnostic_output_witness :
    outputOf (kernel_main_trace envOk) =
      "Hello kernel land\n" ++ "abcdef12\n" ∧
    outputOf (thread_n_main_run (fun _ => 7) 1).events =
      toString (7 : Nat) :=
  ⟨(C10_diagnostic_output envOk 0x2000 rfl).1,
   (C10_diagnostic_output envOk 0x2000 rfl).2 (fun _ => 7) 1 (by omega)⟩
